import Mathlib

/-!
Verification of the Shrync job-lifecycle engine (`app/main.py`).

The Python source is shallowly embedded: every database table is a list of
row structures, the filesystem is an association list from paths to file
contents, and the external transcoder / prober / clock are supplied through
explicit environment parameters.  Each definition below mirrors one Python
function (or a contiguous slice of one) and carries a doc comment naming it.
-/

namespace Shrync

/-- Python `str.lower()` as used on ASCII file extensions. -/
def strLower (s : String) : String := String.mk (s.data.map Char.toLower)

/-- Containment of one character list inside another (used for the Python
substring operator on strings). -/
def listInfixOf (needle : List Char) : List Char → Bool
  | [] => needle.isEmpty
  | c :: t => needle.isPrefixOf (c :: t) || listInfixOf needle t

/-- Python `needle in hay` on strings. -/
def strIn (needle hay : String) : Bool := listInfixOf needle.data hay.data

/-- Python `s[:n]`. -/
def strTake (s : String) (n : Nat) : String := String.mk (s.data.take n)

/-- Python `s[-n:]` (the whole string when it is shorter than n). -/
def strTakeRight (s : String) (n : Nat) : String :=
  String.mk ((s.data.reverse.take n).reverse)

/-- Python `str.strip()`. -/
def pyStrip (s : String) : String :=
  String.mk (((s.data.dropWhile Char.isWhitespace).reverse.dropWhile Char.isWhitespace).reverse)

/-- Final path component, as in `pathlib.PurePath.name` (paths in the system are
absolute file paths without trailing slashes). -/
def pyName (p : String) : String :=
  String.mk ((p.data.reverse.takeWhile (fun c => c ≠ '/')).reverse)

/-- Parent directory as a string, as in `str(Path(p).parent)`. -/
def pyParent (p : String) : String :=
  match (p.data.reverse.dropWhile (fun c => c ≠ '/')).reverse with
  | [] => "."
  | ['/'] => "/"
  | r => String.mk r.dropLast

/-- Last extension of the final component, as in `pathlib.PurePath.suffix`:
the slice from the last dot, empty when the dot is absent, leading or trailing. -/
def pySuffix (p : String) : String :=
  let l := (pyName p).data
  let ext := l.reverse.takeWhile (fun c => c ≠ '.')
  if ext.length = l.length then ""
  else if ext.length = 0 then ""
  else if ext.length = l.length - 1 then ""
  else String.mk ('.' :: ext.reverse)

/-- Final component without its suffix, as in `pathlib.PurePath.stem`. -/
def pyStem (p : String) : String :=
  let nm := (pyName p).data
  String.mk (nm.take (nm.length - (pySuffix p).data.length))

/-- Python `os.path.join` for the two-argument calls in the code. -/
def pyJoin (a b : String) : String :=
  if b.data.head? = some '/' then b
  else if a = "" then b
  else if a.data.getLast? = some '/' then a ++ b
  else a ++ "/" ++ b

/-- Python `int(...)` on an exact rational value: truncation toward zero,
computed as the truncating division of numerator by denominator. -/
def pyTrunc (q : ℚ) : Int := Int.tdiv q.num (q.den : Int)

/-- Floor of a rational as a computation on its normal form; `ratFloor_eq_floor`
identifies it with the mathematical floor. -/
def ratFloor (q : ℚ) : Int := Int.fdiv q.num (q.den : Int)

/-- Digits of a decimal literal folded to an integer (helper for `pyParseInt`). -/
def digitsVal (ds : List Char) : Int :=
  ds.foldl (fun a c => a * 10 + ((c.toNat : Int) - 48)) 0

/-- Python `int(...)` on a string: surrounding spaces, an optional sign, then
decimal digits; `none` models a raised ValueError. -/
def pyParseInt (s : String) : Option Int :=
  match ((s.data.dropWhile (fun c => c = ' ')).reverse.dropWhile (fun c => c = ' ')).reverse with
  | [] => none
  | '-' :: ds => if ds ≠ [] ∧ ds.all Char.isDigit then some (-(digitsVal ds)) else none
  | '+' :: ds => if ds ≠ [] ∧ ds.all Char.isDigit then some (digitsVal ds) else none
  | ds => if ds ≠ [] ∧ ds.all Char.isDigit then some (digitsVal ds) else none

/-- Identity and size of the bytes stored at a path. -/
structure FileContent where
  tag : Nat
  size : Nat
deriving DecidableEq, Repr

/-- The filesystem as a finite map from paths to file contents. -/
abbrev FS := List (String × FileContent)

/-- Content stored at a path, if any. -/
def fsLookup (fs : FS) (p : String) : Option FileContent :=
  (fs.find? (fun e => e.1 == p)).map (fun e => e.2)

/-- Python `os.path.exists`. -/
def fsExists (fs : FS) (p : String) : Bool := (fsLookup fs p).isSome

/-- Python `os.path.getsize` (0 when the path is absent). -/
def fsGetsize (fs : FS) (p : String) : Nat :=
  ((fsLookup fs p).map (fun c => c.size)).getD 0

/-- Python `os.remove`. -/
def fsRemove (fs : FS) (p : String) : FS := fs.filter (fun e => e.1 != p)

/-- Writing (or overwriting) a file. -/
def fsWrite (fs : FS) (p : String) (c : FileContent) : FS := (p, c) :: fsRemove fs p

/-- Python `os.rename` moving the content at src to dst. -/
def fsRename (fs : FS) (src dst : String) : FS :=
  match fsLookup fs src with
  | none => fs
  | some c => fsWrite (fsRemove fs src) dst c

/-- Row of the queue table (all columns of the CREATE TABLE statement;
timestamps are abstract strings, added_at an abstract counter used for
ordering). -/
structure QueueRow where
  id : String
  library_id : Option String
  file_path : String
  file_size : Nat
  status : String
  progress : Int
  fps : ℚ
  eta : String
  added_at : Nat
  started_at : Option String
  finished_at : Option String
  error_msg : Option String
  original_size : Nat
  new_size : Nat
deriving DecidableEq, Repr

/-- An INSERT into the queue giving only (id, library_id, file_path, file_size,
status); the remaining columns take their declared defaults. -/
def mkQueueRow (id : String) (library_id : Option String) (file_path : String)
    (file_size : Nat) (status : String) (added_at : Nat) : QueueRow :=
  { id := id, library_id := library_id, file_path := file_path,
    file_size := file_size, status := status, progress := 0, fps := 0,
    eta := "", added_at := added_at, started_at := none, finished_at := none,
    error_msg := none, original_size := 0, new_size := 0 }

/-- Row of the history table. -/
structure HistoryRow where
  id : String
  library_id : Option String
  file_path : String
  original_size : Nat
  new_size : Nat
  duration_seconds : Nat
  status : String
  error_msg : Option String
  finished_at : String
deriving DecidableEq, Repr

/-- Row of the libraries table (columns used by the verified code paths). -/
structure LibraryRow where
  id : String
  name : String
  path : String
  enabled : Bool
  scan_interval : Nat
  last_scan : Option String
deriving DecidableEq, Repr

/-- The persistent state: filesystem plus the four tables of the sqlite store. -/
structure SysState where
  fs : FS
  libraries : List LibraryRow
  queue : List QueueRow
  history : List HistoryRow
  settings : List (String × String)
deriving DecidableEq, Repr

/-- Function `get_global_setting`. -/
def get_global_setting (settings : List (String × String)) (key dflt : String) : String :=
  match settings.find? (fun e => e.1 == key) with
  | some e => e.2
  | none => dflt

/-- Function `get_max_workers`: the stored `max_workers` value parsed as an
integer and clamped by `max(1, min(3, v))`; 1 on any parse failure. -/
def get_max_workers (settings : List (String × String)) : Int :=
  match pyParseInt (get_global_setting settings "max_workers" "1") with
  | some n => max 1 (min 3 n)
  | none => 1

/-- Function `start_workers`: the slot names of the worker threads started
from the stored setting. -/
def start_workers (settings : List (String × String)) : List String :=
  (List.range (get_max_workers settings).toNat).map (fun i => "Worker-" ++ toString (i + 1))

/-- The module constant VIDEO_EXTENSIONS. -/
def VIDEO_EXTENSIONS : List String :=
  [".mkv", ".mp4", ".avi", ".mov", ".m4v", ".ts", ".wmv", ".flv"]

/-- The module constant PROFILES: profile id to (video_codec, preset, quality). -/
def PROFILES : List (String × (String × String × String)) :=
  [("nvenc_max", ("hevc_nvenc", "p7", "19")),
   ("nvenc_high", ("hevc_nvenc", "p6", "23")),
   ("nvenc_balanced", ("hevc_nvenc", "p4", "26")),
   ("cpu_slow", ("libx265", "slow", "22")),
   ("cpu_medium", ("libx265", "medium", "24")),
   ("cpu_fast", ("libx265", "fast", "26")),
   ("h264_nvenc", ("h264_nvenc", "p6", "20")),
   ("h264_cpu", ("libx264", "medium", "22"))]

/-- Function `profile_to_ffmpeg`: table lookup with nvenc_max as the fallback. -/
def profile_to_ffmpeg (profile_id : String) : String × String × String :=
  match PROFILES.find? (fun e => e.1 == profile_id) with
  | some e => e.2
  | none => ("hevc_nvenc", "p7", "19")

/-- One stream of an ffprobe -show_streams report. -/
structure FFStream where
  codec_type : String
  codec_name : String
deriving DecidableEq, Repr

/-- Function `needs_conversion`: `streams` is the probe result, `none` models a
raised/timed-out ffprobe (the except branch, returning True). Returns False as
soon as some video stream already matches the target family, True otherwise. -/
def needs_conversion (streams : Option (List FFStream)) (target_codec : String) : Bool :=
  match streams with
  | none => true
  | some ss => !(ss.any fun st =>
      st.codec_type == "video" &&
      ((strIn "hevc" target_codec && (st.codec_name == "hevc" || st.codec_name == "h265")) ||
       (strIn "h264" target_codec && st.codec_name == "h264")))

/-- The duplicate-row test issued (as identical SQL) by `scan_library`,
`LibraryWatcher._delayed_queue` and `api_add_to_queue`: a queue row for this
path whose status is pending or processing. -/
def queueExistingCheck (queue : List QueueRow) (fpath : String) : Bool :=
  queue.any fun r => r.file_path == fpath && (r.status == "pending" || r.status == "processing")

/-- The history test issued by `scan_library` and `LibraryWatcher._delayed_queue`:
a history row for this path with status success. -/
def historySuccessCheck (history : List HistoryRow) (fpath : String) : Bool :=
  history.any fun h => h.file_path == fpath && h.status == "success"

/-- Outcome of an HTTP handler: a payload or a raised HTTPException. -/
inductive ApiResult (α : Type) where
  | ok : α → ApiResult α
  | httpError : Nat → String → ApiResult α
deriving DecidableEq, Repr

/-- Handler `api_add_to_queue` (POST /api/queue/add): 400 when the path is
empty or absent on disk, 400 when a pending/processing row for it exists,
otherwise an INSERT of a row that takes the status default pending.
`jid` is the generated uuid and `now` the CURRENT_TIMESTAMP counter. -/
def api_add_to_queue (st : SysState) (file_path : String) (library_id : Option String)
    (jid : String) (now : Nat) : ApiResult String × SysState :=
  if file_path = "" || !(fsExists st.fs file_path) then
    (.httpError 400 "Bestand niet gevonden", st)
  else if queueExistingCheck st.queue file_path then
    (.httpError 400 "Al in wachtrij", st)
  else
    (.ok jid,
     { st with queue := st.queue ++
         [mkQueueRow jid library_id file_path (fsGetsize st.fs file_path) "pending" now] })

/-- Handler `api_remove_queue` (DELETE /api/queue/jid): the row is deleted; when
it was processing, the transcoder handle registered in active_jobs is killed —
that kill is an effect on the external child and shows up as a non-zero
returncode in the ConvEnv of the worker currently inside `run_conversion`. -/
def api_remove_queue (st : SysState) (jid : String) : SysState :=
  { st with queue := st.queue.filter (fun r => r.id != jid) }

/-- Everything `run_conversion` obtains from outside the store: module
configuration, the probe, the transcoder child and the clock.  `tmpProduced`
says whether the child left an output file at the temp path, `returncode` its
exit status (negative when killed), `stderrOut` the drained stderr.  The three
Fails flags say which of the `os.remove`/`os.rename` calls of the finalisation
raise, and `moveErr` is the exception text interpolated into the Dutch error
message. -/
structure ConvEnv where
  cacheDir : String
  gpu_mode : String
  duration : ℚ
  tmpProduced : Bool
  tmpContent : FileContent
  returncode : Int
  stderrOut : String
  removeSrcFails : Bool
  renameFails : Bool
  removeTmpFails : Bool
  moveErr : String
  elapsed : Nat
  startedAt : String
  now : String
  histId : String
deriving Repr

/-- The temp output path of `run_conversion`:
source stem, the marker, the first 8 characters of the job id, and the .mkv
extension, under CACHE_DIR or, when none is configured, the source directory. -/
def conversionTmpPath (cacheDir src jobId : String) : String :=
  pyJoin (if cacheDir ≠ "" then cacheDir else pyParent src)
    (pyStem src ++ "_shrync_" ++ strTake jobId 8 ++ ".mkv")

/-- The CPU fallback of `run_conversion`: an nvenc codec is downgraded to its
CPU equivalent whenever GPU_MODE is not nvidia. -/
def effectiveCodec (video_codec gpu_mode : String) : String :=
  if strIn "nvenc" video_codec && gpu_mode != "nvidia" then
    if strIn "hevc" video_codec then "libx265" else "libx264"
  else video_codec

/-- The `is_nvenc` flag of `run_conversion` choosing the argument form. -/
def isNvencDispatch (video_codec gpu_mode : String) : Bool :=
  strIn "nvenc" video_codec && gpu_mode == "nvidia"

/-- The two ffmpeg argument vectors of `run_conversion`. -/
def buildFfmpegCmd (isNv : Bool) (src eff preset quality audio tmp_out : String) :
    List String :=
  if isNv then
    ["ffmpeg", "-y", "-i", src, "-c:v", eff, "-preset", preset, "-rc", "constqp",
     "-qp", quality, "-b:v", "0", "-c:a", audio, "-c:s", "copy",
     "-progress", "pipe:1", "-nostats", tmp_out]
  else
    ["ffmpeg", "-y", "-i", src, "-c:v", eff, "-preset", preset, "-crf", quality,
     "-c:a", audio, "-c:s", "copy", "-progress", "pipe:1", "-nostats", tmp_out]

/-- The history row inserted on the error paths of `run_conversion`
(new_size is the literal 0 of the INSERT). -/
def historyErrorRow (env : ConvEnv) (library_id : Option String) (src : String)
    (original_size : Nat) (msg : String) : HistoryRow :=
  { id := env.histId, library_id := library_id, file_path := src,
    original_size := original_size, new_size := 0, duration_seconds := env.elapsed,
    status := "error", error_msg := some msg, finished_at := env.now }

/-- The history row inserted on the success path of `run_conversion`. -/
def historySuccessRow (env : ConvEnv) (library_id : Option String) (src : String)
    (original_size new_size : Nat) : HistoryRow :=
  { id := env.histId, library_id := library_id, file_path := src,
    original_size := original_size, new_size := new_size,
    duration_seconds := env.elapsed, status := "success", error_msg := none,
    finished_at := env.now }

/-- The except handler of the in-place swap of `run_conversion`: delete the
temp file if it is still present (ignoring a failure of that delete), insert a
history row with the Dutch move-failure message, and delete the queue row. -/
def moveFailCleanup (env : ConvEnv) (jobId : String) (library_id : Option String)
    (src : String) (original_size : Nat) (tmp_out : String) (st : SysState) : SysState :=
  let st1 := if fsExists st.fs tmp_out && !env.removeTmpFails then
               { st with fs := fsRemove st.fs tmp_out } else st
  { st1 with
    history := st1.history ++
      [historyErrorRow env library_id src original_size
        ("Bestand verplaatsen mislukt: " ++ env.moveErr)],
    queue := st1.queue.filter (fun r => r.id != jobId) }

/-- The finalisation of `run_conversion`: everything after `process.wait()`.
`library_id`, `src` and `original_size` are the values captured when the job
was loaded — the queue row itself may have been deleted concurrently by
`api_remove_queue`.  On exit 0 with the temp present: measure new_size, then
`os.remove(src)` and `os.rename(tmp_out, src)` inside one try, whose except
handler is `moveFailCleanup`; on success insert history(success) and delete
the row.  Otherwise: derive the error detail from stderr, delete the temp if
present, insert history(error) and delete the row. -/
def conversionFinish (env : ConvEnv) (jobId : String) (library_id : Option String)
    (src : String) (original_size : Nat) (tmp_out : String) (st : SysState) : SysState :=
  if env.returncode == 0 && fsExists st.fs tmp_out then
    let new_size := fsGetsize st.fs tmp_out
    if env.removeSrcFails then
      moveFailCleanup env jobId library_id src original_size tmp_out st
    else
      let st1 := { st with fs := fsRemove st.fs src }
      if env.renameFails then
        moveFailCleanup env jobId library_id src original_size tmp_out st1
      else
        let st2 := { st1 with fs := fsRename st1.fs tmp_out src }
        { st2 with
          history := st2.history ++
            [historySuccessRow env library_id src original_size new_size],
          queue := st2.queue.filter (fun r => r.id != jobId) }
  else
    let error_detail :=
      if pyStrip env.stderrOut ≠ "" then pyStrip (strTakeRight env.stderrOut 1000)
      else "ffmpeg returncode: " ++ toString env.returncode
    let st1 := if fsExists st.fs tmp_out && !env.removeTmpFails then
                 { st with fs := fsRemove st.fs tmp_out } else st
    { st1 with
      history := st1.history ++
        [historyErrorRow env library_id src original_size error_detail],
      queue := st1.queue.filter (fun r => r.id != jobId) }

/-- Result of `run_conversion`: the new state plus the argv actually handed to
`subprocess.Popen` (none when no transcoder was spawned). -/
structure ConvOutcome where
  st : SysState
  spawned : Option (List String)
deriving Repr

/-- Function `run_conversion`.  Load the row; if the source is gone, set the
row itself to status error with the Dutch message (no history insert, no
delete) and return.  Otherwise compute the temp path, read profile and audio
settings, downgrade the codec per GPU_MODE, build the argv, mark the row
processing with started_at and original_size, let the child run (the produced
temp file appears on the filesystem), and finalise via `conversionFinish`.
The intermediate progress commits touch only progress/fps/eta of a row that
every finalisation path deletes; they are modelled by `onFpsFrame` below. -/
def run_conversion (env : ConvEnv) (job_id : String) (st : SysState) : ConvOutcome :=
  match st.queue.find? (fun r => r.id == job_id) with
  | none => ⟨st, none⟩
  | some job =>
    if !(fsExists st.fs job.file_path) then
      ⟨{ st with queue := st.queue.map (fun r =>
           if r.id == job_id then
             { r with status := "error", error_msg := some "Bestand niet gevonden",
                      finished_at := some env.now }
           else r) }, none⟩
    else
      let src := job.file_path
      let tmp_out := conversionTmpPath env.cacheDir src job_id
      let vpq := profile_to_ffmpeg (get_global_setting st.settings "conversion_profile" "nvenc_max")
      let audio_codec := get_global_setting st.settings "audio_codec" "copy"
      let eff := effectiveCodec vpq.1 env.gpu_mode
      let cmd := buildFfmpegCmd (isNvencDispatch vpq.1 env.gpu_mode) src eff vpq.2.1 vpq.2.2 audio_codec tmp_out
      let original_size := fsGetsize st.fs src
      let st1 := { st with queue := st.queue.map (fun r =>
        if r.id == job_id then
          { r with status := "processing", started_at := some env.startedAt,
                   original_size := original_size }
        else r) }
      let st2 := if env.tmpProduced then { st1 with fs := fsWrite st1.fs tmp_out env.tmpContent } else st1
      ⟨conversionFinish env job_id job.library_id src original_size tmp_out st2, some cmd⟩

/-- The temp path `cleanup_stale_conversions` computes for a processing row:
stem, an underscore, the first 8 characters of the id, .mkv — joined under
CACHE_DIR (even when CACHE_DIR is empty). -/
def stale_tmp_path (cacheDir : String) (job : QueueRow) : String :=
  pyJoin cacheDir (pyStem job.file_path ++ "_" ++ strTake job.id 8 ++ ".mkv")

/-- Function `cleanup_stale_conversions`: for every row left in processing,
remove the file at its `stale_tmp_path` when present, and reset the row to
pending with progress/fps/eta cleared and started_at nulled. -/
def cleanup_stale_conversions (cacheDir : String) (st : SysState) : SysState :=
  (st.queue.filter (fun r => r.status == "processing")).foldl
    (fun acc job =>
      let tmp_file := stale_tmp_path cacheDir job
      { acc with
        fs := if fsExists acc.fs tmp_file then fsRemove acc.fs tmp_file else acc.fs,
        queue := acc.queue.map (fun r =>
          if r.id == job.id then
            { r with status := "pending", progress := 0, fps := 0, eta := "",
                     started_at := none }
          else r) })
    st

/-- The fps branch of the progress loop of `run_conversion`: the
(progress, fps, eta) triple committed to the queue row, given the probed
duration, the latest out_time_us value and the parsed fps.  Python `int()`
is `pyTrunc`, `//` is `Int.fdiv` and `%` is `Int.emod`. -/
def onFpsFrame (duration : ℚ) (out_time_us : Int) (fps_val : ℚ) : Int × ℚ × String :=
  if duration > 0 then
    let current_sec : ℚ := (out_time_us : ℚ) / 1000000
    let progress := min (pyTrunc (current_sec / duration * 100)) 99
    if fps_val > 0 then
      let remaining_sec := pyTrunc ((duration - current_sec) / fps_val * 25)
      (progress, fps_val,
       toString (Int.fdiv remaining_sec 60) ++ "m" ++ toString (Int.emod remaining_sec 60) ++ "s")
    else (progress, fps_val, "")
  else (0, fps_val, "")

/-- The committed (progress, eta) pair exactly as the claim words it: floor in
both formulas.  This definition follows the specification sentences, not the
code, and is compared against `onFpsFrame`. -/
def specFrameClaim (duration : ℚ) (out_time_us : Int) (fps : ℚ) : Int × String :=
  if 0 < duration then
    (min (ratFloor ((out_time_us : ℚ) / 1000000 / duration * 100)) 99,
     if 0 < fps then
       toString (Int.fdiv (ratFloor ((duration - (out_time_us : ℚ) / 1000000) / fps * 25)) 60) ++ "m" ++
       toString (Int.emod (ratFloor ((duration - (out_time_us : ℚ) / 1000000) / fps * 25)) 60) ++ "s"
     else "")
  else (0, "")

/-- The claim formulas amended no further than forced: remaining_sec is
truncated toward zero (Python int()) instead of floored; the floor in the
progress formula is kept. -/
def specFrameAmended (duration : ℚ) (out_time_us : Int) (fps : ℚ) : Int × String :=
  if 0 < duration then
    (min (ratFloor ((out_time_us : ℚ) / 1000000 / duration * 100)) 99,
     if 0 < fps then
       toString (Int.fdiv (pyTrunc ((duration - (out_time_us : ℚ) / 1000000) / fps * 25)) 60) ++ "m" ++
       toString (Int.emod (pyTrunc ((duration - (out_time_us : ℚ) / 1000000) / fps * 25)) 60) ++ "s"
     else "")
  else (0, "")

/-- One file met by the os.walk of `scan_library`: the directory it sits in,
its bare name, its size, and its ffprobe stream report (none models a probe
failure). -/
structure FileEntry where
  root : String
  fname : String
  size : Nat
  streams : Option (List FFStream)
deriving DecidableEq, Repr

/-- The `os.path.join(root, fname)` of the walk. -/
def entryPath (f : FileEntry) : String := pyJoin f.root f.fname

/-- Accumulator of one `scan_library` run: the evolving state, the four
counters shown in scan_status, and the index into the fresh-uuid supply
(which doubles as the CURRENT_TIMESTAMP counter of inserted rows). -/
structure ScanAcc where
  st : SysState
  scanned : Nat
  added : Nat
  skipped : Nat
  already_converted : Nat
  nextId : Nat
deriving Repr

/-- The body of the walk loop of `scan_library` for one file, in source order:
extension filter, the _shrync_ marker filter, the CACHE_DIR substring filter
(all three leave every counter untouched); then scanned increments and the
file is classified: an existing pending/processing queue row or a success
history row counts it skipped, a probe already matching the profile family
counts it already_converted, and otherwise a pending row is inserted and
committed and added increments. -/
def scanStep (cacheDir : String) (ids : Nat → String) (library_id : String)
    (acc : ScanAcc) (f : FileEntry) : ScanAcc :=
  if !(VIDEO_EXTENSIONS.contains (strLower (pySuffix f.fname))) then acc
  else if strIn "_shrync_" f.fname then acc
  else if cacheDir != "" && strIn cacheDir (entryPath f) then acc
  else
    let acc1 := { acc with scanned := acc.scanned + 1 }
    if queueExistingCheck acc1.st.queue (entryPath f) then
      { acc1 with skipped := acc1.skipped + 1 }
    else if historySuccessCheck acc1.st.history (entryPath f) then
      { acc1 with skipped := acc1.skipped + 1 }
    else if !(needs_conversion f.streams
        (profile_to_ffmpeg (get_global_setting acc1.st.settings "conversion_profile" "nvenc_max")).1) then
      { acc1 with already_converted := acc1.already_converted + 1 }
    else
      { acc1 with
        st := { acc1.st with queue := acc1.st.queue ++
          [mkQueueRow (ids acc1.nextId) (some library_id) (entryPath f) f.size "pending" acc1.nextId] },
        added := acc1.added + 1,
        nextId := acc1.nextId + 1 }

/-- The walk of `scan_library` folded over the files in directory order. -/
def scanFiles (cacheDir : String) (ids : Nat → String) (library_id : String)
    (files : List FileEntry) (acc : ScanAcc) : ScanAcc :=
  files.foldl (scanStep cacheDir ids library_id) acc

/-- Function `scan_library`: library lookup (a missing row returns at once),
the root-directory check (`pathOk` is os.path.isdir plus the os.listdir probe;
failure sets scan_status to error and returns with no queue side effects),
the walk, then the last_scan update.  The scan_status bookkeeping and logging
have no store or filesystem effects and are not part of the state. -/
def scan_library (cacheDir : String) (ids : Nat → String) (library_id : String)
    (files : List FileEntry) (pathOk : Bool) (now : String) (st : SysState) : ScanAcc :=
  match st.libraries.find? (fun l => l.id == library_id) with
  | none => ⟨st, 0, 0, 0, 0, 0⟩
  | some _ =>
    if !pathOk then ⟨st, 0, 0, 0, 0, 0⟩
    else
      let acc := scanFiles cacheDir ids library_id files ⟨st, 0, 0, 0, 0, 0⟩
      { acc with st := { acc.st with libraries := acc.st.libraries.map (fun l =>
          if l.id == library_id then { l with last_scan := some now } else l) } }

/-- Method `LibraryWatcher._delayed_queue` from its two sleeps onward.
`stillPending` says the path survived in the per-watcher pending set,
`sizesOk` that the two 10-second-apart size samples existed and were equal
(a differing or unreadable size abandons the file).  Then the same queue and
history checks as the scanner, the library lookup, the probe, and the
pending insert. -/
def watcher_delayed_queue (st : SysState) (library_id : String)
    (stillPending sizesOk : Bool) (streams : Option (List FFStream))
    (fpath : String) (jid : String) (fsize : Nat) (now : Nat) : SysState :=
  if !stillPending then st
  else if !sizesOk then st
  else if queueExistingCheck st.queue fpath || historySuccessCheck st.history fpath then st
  else if (st.libraries.find? (fun l => l.id == library_id)).isNone
       || !(needs_conversion streams
             (profile_to_ffmpeg (get_global_setting st.settings "conversion_profile" "nvenc_max")).1) then st
  else
    { st with queue := st.queue ++ [mkQueueRow jid (some library_id) fpath fsize "pending" now] }
/-- Conversion environment of the C1 failing input: the transcoder exits 0 and
leaves its output in the configured cache directory (a different mount than
the library), `os.remove(src)` succeeds, `os.rename(tmp_out, src)` raises. -/
def c1Env : ConvEnv :=
  { cacheDir := "/cache", gpu_mode := "cpu", duration := 100,
    tmpProduced := true, tmpContent := ⟨2, 3000⟩, returncode := 0,
    stderrOut := "", removeSrcFails := false, renameFails := true,
    removeTmpFails := false, moveErr := "Invalid cross-device link",
    elapsed := 7, startedAt := "T0", now := "T1", histId := "h1" }

/-- Starting state of the C1 failing input: one pending job whose source file
is on disk. -/
def c1St : SysState :=
  { fs := [("/media/movie.mkv", ⟨1, 5000⟩)], libraries := [],
    queue := [mkQueueRow "aaaabbbb-cccc" (some "L") "/media/movie.mkv" 5000 "pending" 0],
    history := [], settings := [] }

/-- State of the C2 failing input: a job interrupted mid-transcode, with the
artifact the transcoder actually wrote (at `conversionTmpPath`) still on disk. -/
def c2St : SysState :=
  { fs := [("/cache/show_shrync_abcdef12.mkv", ⟨3, 400⟩)], libraries := [],
    queue := [{ mkQueueRow "abcdef12-3456" (some "L") "/media/show.mkv" 900 "processing" 0 with
                  progress := 55, fps := 24, eta := "3m2s", started_at := some "T" }],
    history := [], settings := [] }

/-- State of the C3 counterexample: one pending job whose source file is gone. -/
def c3St : SysState :=
  { fs := [], libraries := [],
    queue := [mkQueueRow "j1" (some "L") "/media/gone.mkv" 5000 "pending" 0],
    history := [], settings := [] }

/-- State of the C4 counterexample: the worker is mid-transcode (row
processing, partial temp on disk) when the delete endpoint fires. -/
def c4St : SysState :=
  { fs := [("/media/movie.mkv", ⟨1, 5000⟩), ("/cache/movie_shrync_aaaabbbb.mkv", ⟨2, 1000⟩)],
    libraries := [],
    queue := [{ mkQueueRow "aaaabbbb-cccc" (some "L") "/media/movie.mkv" 5000 "processing" 0 with
                  original_size := 5000 }],
    history := [], settings := [] }

/-- Environment of the C4 counterexample: the killed child reports exit -9 and
an empty stderr. -/
def c4Env : ConvEnv := { c1Env with returncode := -9, renameFails := false }

/-- State for the C5 witness: a pending job with the nvenc_max profile stored
in settings, dispatched while GPU_MODE is cpu (see `c1Env`). -/
def c5St : SysState :=
  { fs := [("/media/movie.mkv", ⟨1, 5000⟩)], libraries := [],
    queue := [mkQueueRow "aaaabbbb-cccc" (some "L") "/media/movie.mkv" 5000 "pending" 0],
    history := [],
    settings := [("conversion_profile", "nvenc_max"), ("audio_codec", "copy")] }

/-- State for the C8 witness: the target file on disk, nothing queued. -/
def c8St : SysState :=
  { fs := [("/media/new.mkv", ⟨4, 800⟩)], libraries := [], queue := [],
    history := [], settings := [] }

/-- State for the C10 witness: the only queue row for the path has status
error (as the missing-source branch of `run_conversion` leaves it). -/
def c10St : SysState :=
  { fs := [("/media/err.mkv", ⟨9, 700⟩)],
    libraries := [{ id := "L1", name := "Lib", path := "/media", enabled := true,
                    scan_interval := 3600, last_scan := none }],
    queue := [{ mkQueueRow "e1" (some "L1") "/media/err.mkv" 700 "error" 0 with
                  error_msg := some "Bestand niet gevonden" }],
    history := [], settings := [] }

/-- The file entry of the C10 witness as the scanner walk meets it. -/
def c10File : FileEntry := { root := "/media", fname := "err.mkv", size := 700, streams := none }

/-- A fresh-uuid supply for the C10 witness. -/
def ids10 : Nat → String := fun i => "uuid-" ++ toString i

/-- The three state-independent filters at the top of the scan loop (wrong
extension, _shrync_ marker, cache-directory path): a file they reject is
ignored by the walk without touching any counter. -/
def scanIgnores (cacheDir : String) (f : FileEntry) : Bool :=
  !(VIDEO_EXTENSIONS.contains (strLower (pySuffix f.fname))) ||
  strIn "_shrync_" f.fname || (cacheDir != "" && strIn cacheDir (entryPath f))

/-- A file is settled for a state when the scan loop cannot insert a row for
it there: it is ignored, a pending/processing row or success history row for
its path exists, or the probe says it is already in the target family. -/
def settledB (cacheDir : String) (st : SysState) (f : FileEntry) : Bool :=
  scanIgnores cacheDir f ||
  queueExistingCheck st.queue (entryPath f) ||
  historySuccessCheck st.history (entryPath f) ||
  !(needs_conversion f.streams
      (profile_to_ffmpeg (get_global_setting st.settings "conversion_profile" "nvenc_max")).1)

/-- A file the scan loop counts as skipped in a given state: not ignored, and
caught by the queue or history check. -/
def skipClass (cacheDir : String) (st : SysState) (f : FileEntry) : Bool :=
  !(scanIgnores cacheDir f) &&
  (queueExistingCheck st.queue (entryPath f) || historySuccessCheck st.history (entryPath f))

/-- Library table entry of the C7 witness. -/
def c7Lib : LibraryRow :=
  { id := "L1", name := "Lib", path := "/media", enabled := true,
    scan_interval := 3600, last_scan := none }

/-- State of the C7 witness: one library, nothing queued. -/
def c7St : SysState :=
  { fs := [], libraries := [c7Lib], queue := [], history := [], settings := [] }

/-- The one file the C7 witness walk meets (its probe fails, so it needs
conversion and the first scan enqueues it). -/
def c7File : FileEntry := { root := "/media", fname := "a.mkv", size := 100, streams := none }

theorem ratFloor_eq_floor (q : ℚ) : ratFloor q = ⌊q⌋ := by
  rw [ratFloor, Rat.floor_def, Int.fdiv_eq_ediv _ (by positivity)]

theorem pyTrunc_eq_floor_of_nonneg (q : ℚ) (h : 0 ≤ q) : pyTrunc q = ⌊q⌋ := by
  rw [pyTrunc, Rat.floor_def, Int.tdiv_eq_ediv (Rat.num_nonneg.2 h) (by positivity)]

theorem pyTrunc_neg (q : ℚ) : pyTrunc (-q) = -pyTrunc q := by
  simp [pyTrunc, Rat.neg_num, Rat.neg_den, Int.neg_tdiv]

theorem pyTrunc_eq_neg_floor_neg_of_nonpos (q : ℚ) (h : q ≤ 0) : pyTrunc q = -⌊-q⌋ := by
  have h2 : pyTrunc (-q) = ⌊-q⌋ := pyTrunc_eq_floor_of_nonneg _ (by linarith)
  have h1 := pyTrunc_neg q
  omega

/-- C1: the no-data-loss finalisation invariant fails on the code.  The source
existed at claim time and the swap is reached, but because `run_conversion`
deletes the source before renaming and then also deletes the temp in the
rename-failure handler, a failed rename leaves NO file at the source path and
no copy of the data anywhere, while a history(error) row is recorded — neither
state (a) nor state (b) of the claim holds, and in particular the original is
not still present. -/
theorem C1_rename_failure_loses_source :
    fsExists c1St.fs "/media/movie.mkv" = true ∧
    fsExists (run_conversion c1Env "aaaabbbb-cccc" c1St).st.fs "/media/movie.mkv" = false ∧
    (run_conversion c1Env "aaaabbbb-cccc" c1St).st.fs = [] ∧
    (run_conversion c1Env "aaaabbbb-cccc" c1St).st.history =
      [historyErrorRow c1Env (some "L") "/media/movie.mkv" 5000
        "Bestand verplaatsen mislukt: Invalid cross-device link"] := by
  decide

/-- C2: startup recovery resets the processing row to pending with
progress/fps/eta cleared and started_at nulled, but the temp artifact at the
path the transcode step computes survives, because `cleanup_stale_conversions`
looks for stem_id8.mkv (without the _shrync_ marker) under CACHE_DIR instead
of the stem_shrync_id8.mkv name `run_conversion` writes. -/
theorem C2_cleanup_resets_but_misses_temp :
    (cleanup_stale_conversions "/cache" c2St).queue =
      [mkQueueRow "abcdef12-3456" (some "L") "/media/show.mkv" 900 "pending" 0] ∧
    conversionTmpPath "/cache" "/media/show.mkv" "abcdef12-3456" =
      "/cache/show_shrync_abcdef12.mkv" ∧
    stale_tmp_path "/cache" (mkQueueRow "abcdef12-3456" (some "L") "/media/show.mkv" 900 "processing" 0) =
      "/cache/show_abcdef12.mkv" ∧
    fsExists (cleanup_stale_conversions "/cache" c2St).fs
      (conversionTmpPath "/cache" "/media/show.mkv" "abcdef12-3456") = true := by
  decide

/-- C3 counterexample: with the source missing, `run_conversion` inserts NO
history row and the queue row is NOT deleted — it is updated in place to
status error, refuting both halves of the claim. -/
theorem C3_missing_source_no_history_cex :
    (run_conversion c1Env "j1" c3St).st.history = [] ∧
    ((run_conversion c1Env "j1" c3St).st.queue.any fun r => r.id == "j1") = true ∧
    ((run_conversion c1Env "j1" c3St).st.queue.map fun r => r.status) = ["error"] := by
  decide

/-- C4 counterexample: after DELETE /api/queue/id kills the processing job,
the worker observes the non-zero exit and its error path inserts a history row
with status error for the job — refuting the claim that no history row exists
for it (the queue row and temp are indeed gone). -/
theorem C4_kill_history_row_cex :
    ((conversionFinish c4Env "aaaabbbb-cccc" (some "L") "/media/movie.mkv" 5000
        "/cache/movie_shrync_aaaabbbb.mkv" (api_remove_queue c4St "aaaabbbb-cccc")).history.any
      fun h => h.file_path == "/media/movie.mkv" && h.status == "error") = true ∧
    (conversionFinish c4Env "aaaabbbb-cccc" (some "L") "/media/movie.mkv" 5000
        "/cache/movie_shrync_aaaabbbb.mkv" (api_remove_queue c4St "aaaabbbb-cccc")).history ≠ [] := by
  decide

theorem fsLookup_fsRemove_self (fs : FS) (p : String) : fsLookup (fsRemove fs p) p = none := by
  have hfind : (fsRemove fs p).find? (fun e => e.1 == p) = none := by
    rw [List.find?_eq_none]
    intro x hx
    simp only [fsRemove, List.mem_filter] at hx
    simpa using hx.2
  simp [fsLookup, hfind]

theorem fsExists_fsRemove_self (fs : FS) (p : String) : fsExists (fsRemove fs p) p = false := by
  simp [fsExists, fsLookup_fsRemove_self]

/-- C3 amended: when the source path no longer exists at load time,
`run_conversion` updates the queue row in place to status error with
error_msg "Bestand niet gevonden" and a finished_at timestamp; it inserts no
history row, spawns no transcoder, leaves the filesystem alone, and the row
remains in the queue rather than being deleted. -/
theorem C3_missing_source_marks_row_error (env : ConvEnv) (jid : String) (st : SysState)
    (job : QueueRow) (hfind : st.queue.find? (fun r => r.id == jid) = some job)
    (hmiss : fsExists st.fs job.file_path = false) :
    (run_conversion env jid st).st.history = st.history ∧
    (run_conversion env jid st).st.queue = st.queue.map (fun r =>
      if r.id == jid then
        { r with status := "error", error_msg := some "Bestand niet gevonden",
                 finished_at := some env.now }
      else r) ∧
    (run_conversion env jid st).spawned = none ∧
    (run_conversion env jid st).st.fs = st.fs := by
  simp only [run_conversion, hfind, hmiss]
  simp

/-- Witness for C3: the amended behaviour evaluated on the concrete missing
source state. -/
theorem C3_missing_source_witness :
    (run_conversion c1Env "j1" c3St).st.history = c3St.history ∧
    (run_conversion c1Env "j1" c3St).st.queue = c3St.queue.map (fun r =>
      if r.id == "j1" then
        { r with status := "error", error_msg := some "Bestand niet gevonden",
                 finished_at := some c1Env.now }
      else r) ∧
    (run_conversion c1Env "j1" c3St).spawned = none ∧
    (run_conversion c1Env "j1" c3St).st.fs = c3St.fs :=
  C3_missing_source_marks_row_error c1Env "j1" c3St
    (mkQueueRow "j1" (some "L") "/media/gone.mkv" 5000 "pending" 0) (by decide) (by decide)

/-- C4 amended: deleting a processing job via DELETE /api/queue/id kills the
registered transcoder (the worker then sees a non-zero returncode — hypothesis
hrc); afterwards no queue row with the job id remains, the temp file is gone,
but the worker error path inserts a history row with status error for the
source file (contrary to the claim's no-history clause). -/
theorem C4_kill_processing_amended (st : SysState) (env : ConvEnv) (jid : String)
    (lib : Option String) (src : String) (osz : Nat) (tmp : String)
    (hrc : env.returncode ≠ 0) (htmp : env.removeTmpFails = false) :
    (∀ r ∈ (conversionFinish env jid lib src osz tmp (api_remove_queue st jid)).queue, r.id ≠ jid) ∧
    fsExists (conversionFinish env jid lib src osz tmp (api_remove_queue st jid)).fs tmp = false ∧
    ∃ h ∈ (conversionFinish env jid lib src osz tmp (api_remove_queue st jid)).history,
      h.file_path = src ∧ h.status = "error" := by
  have hcond : (env.returncode == 0 && fsExists (api_remove_queue st jid).fs tmp) = false := by
    simp [hrc]
  simp only [conversionFinish, hcond, Bool.false_eq_true, if_false, htmp]
  refine ⟨?_, ?_, ?_⟩
  · intro r hr
    by_cases hex : fsExists (api_remove_queue st jid).fs tmp
    · simp [hex] at hr
      rcases hr with ⟨hmem, hne⟩
      simpa using hne
    · simp [hex] at hr
      rcases hr with ⟨hmem, hne⟩
      simpa using hne
  · by_cases hex : fsExists (api_remove_queue st jid).fs tmp
    · simp [hex, fsExists_fsRemove_self]
    · simp only [Bool.not_eq_true] at hex
      simp [hex]
  · by_cases hex : fsExists (api_remove_queue st jid).fs tmp
    · exact ⟨historyErrorRow env lib src osz
        (if pyStrip env.stderrOut ≠ "" then pyStrip (strTakeRight env.stderrOut 1000)
         else "ffmpeg returncode: " ++ toString env.returncode),
        by simp [hex, historyErrorRow], rfl, rfl⟩
    · exact ⟨historyErrorRow env lib src osz
        (if pyStrip env.stderrOut ≠ "" then pyStrip (strTakeRight env.stderrOut 1000)
         else "ffmpeg returncode: " ++ toString env.returncode),
        by simp [hex, historyErrorRow], rfl, rfl⟩

/-- Witness for C4: the amended kill behaviour evaluated on the concrete
mid-transcode state. -/
theorem C4_kill_processing_witness :
    (∀ r ∈ (conversionFinish c4Env "aaaabbbb-cccc" (some "L") "/media/movie.mkv" 5000
        "/cache/movie_shrync_aaaabbbb.mkv" (api_remove_queue c4St "aaaabbbb-cccc")).queue,
      r.id ≠ "aaaabbbb-cccc") ∧
    fsExists (conversionFinish c4Env "aaaabbbb-cccc" (some "L") "/media/movie.mkv" 5000
        "/cache/movie_shrync_aaaabbbb.mkv" (api_remove_queue c4St "aaaabbbb-cccc")).fs
      "/cache/movie_shrync_aaaabbbb.mkv" = false ∧
    ∃ h ∈ (conversionFinish c4Env "aaaabbbb-cccc" (some "L") "/media/movie.mkv" 5000
        "/cache/movie_shrync_aaaabbbb.mkv" (api_remove_queue c4St "aaaabbbb-cccc")).history,
      h.file_path = "/media/movie.mkv" ∧ h.status = "error" :=
  C4_kill_processing_amended c4St c4Env "aaaabbbb-cccc" (some "L") "/media/movie.mkv" 5000
    "/cache/movie_shrync_aaaabbbb.mkv" (by decide) rfl

theorem moveFailCleanup_settings (env : ConvEnv) (jid : String) (lib : Option String)
    (src : String) (osz : Nat) (tmp : String) (st : SysState) :
    (moveFailCleanup env jid lib src osz tmp st).settings = st.settings := by
  simp only [moveFailCleanup]
  split <;> rfl

theorem conversionFinish_settings (env : ConvEnv) (jid : String) (lib : Option String)
    (src : String) (osz : Nat) (tmp : String) (st : SysState) :
    (conversionFinish env jid lib src osz tmp st).settings = st.settings := by
  simp only [conversionFinish]
  split
  · split
    · exact moveFailCleanup_settings ..
    · split
      · exact moveFailCleanup_settings ..
      · rfl
  · split <;> rfl

theorem run_conversion_settings (env : ConvEnv) (jid : String) (st : SysState) :
    (run_conversion env jid st).st.settings = st.settings := by
  simp only [run_conversion]
  cases hfind : st.queue.find? (fun r => r.id == jid) with
  | none => rfl
  | some job =>
    by_cases hsrc : fsExists st.fs job.file_path
    · simp only [hsrc, Bool.not_true, Bool.false_eq_true, if_false]
      rw [conversionFinish_settings]
      split <;> rfl
    · simp only [Bool.not_eq_true] at hsrc
      simp [hsrc]

theorem nvenc_codec_characterisation (pid : String)
    (h : strIn "nvenc" (profile_to_ffmpeg pid).1 = true) :
    (profile_to_ffmpeg pid).1 = "hevc_nvenc" ∨ (profile_to_ffmpeg pid).1 = "h264_nvenc" := by
  unfold profile_to_ffmpeg at h ⊢
  cases hf : PROFILES.find? (fun e => e.1 == pid) with
  | none => left; rfl
  | some e =>
    have hmem := List.mem_of_find?_eq_some hf
    rw [hf] at h
    simp only [PROFILES, List.mem_cons, List.not_mem_nil, or_false] at hmem
    rcases hmem with h1 | h1 | h1 | h1 | h1 | h1 | h1 | h1 <;> subst h1 <;>
      simp_all <;> revert h <;> decide

/-- C5: dispatching a job whose stored profile has an *_nvenc video codec
while GPU_MODE is not nvidia uses the CPU equivalent (hevc_nvenc to libx265,
h264_nvenc to libx264), spawns the transcoder with the CPU argument form
-crf quality -preset preset (preset token unchanged, no -rc constqp / -qp),
and leaves the persisted settings — conversion_profile included — unchanged. -/
theorem C5_gpu_downgrade (env : ConvEnv) (jid : String) (st : SysState) (job : QueueRow)
    (vc pr q : String)
    (hfind : st.queue.find? (fun r => r.id == jid) = some job)
    (hsrc : fsExists st.fs job.file_path = true)
    (hv : profile_to_ffmpeg (get_global_setting st.settings "conversion_profile" "nvenc_max") = (vc, pr, q))
    (hnv : strIn "nvenc" vc = true)
    (hgpu : env.gpu_mode ≠ "nvidia") :
    (vc = "hevc_nvenc" ∨ vc = "h264_nvenc") ∧
    effectiveCodec vc env.gpu_mode = (if vc = "hevc_nvenc" then "libx265" else "libx264") ∧
    (run_conversion env jid st).spawned = some
      ["ffmpeg", "-y", "-i", job.file_path, "-c:v",
       (if vc = "hevc_nvenc" then "libx265" else "libx264"), "-preset", pr, "-crf", q,
       "-c:a", get_global_setting st.settings "audio_codec" "copy", "-c:s", "copy",
       "-progress", "pipe:1", "-nostats", conversionTmpPath env.cacheDir job.file_path jid] ∧
    (run_conversion env jid st).st.settings = st.settings := by
  have hvc : vc = "hevc_nvenc" ∨ vc = "h264_nvenc" := by
    have hchar := nvenc_codec_characterisation
      (get_global_setting st.settings "conversion_profile" "nvenc_max") (by rw [hv]; exact hnv)
    rw [hv] at hchar
    exact hchar
  have hbne : (env.gpu_mode != "nvidia") = true := by simp [hgpu]
  have hbeq : (env.gpu_mode == "nvidia") = false := by simp [hgpu]
  have heff : effectiveCodec vc env.gpu_mode = (if vc = "hevc_nvenc" then "libx265" else "libx264") := by
    rcases hvc with h | h <;> subst h <;>
      simp [effectiveCodec, hbne, show strIn "nvenc" "hevc_nvenc" = true from by decide,
        show strIn "hevc" "hevc_nvenc" = true from by decide,
        show strIn "nvenc" "h264_nvenc" = true from by decide,
        show strIn "hevc" "h264_nvenc" = false from by decide]
  refine ⟨hvc, heff, ?_, run_conversion_settings env jid st⟩
  simp only [run_conversion, hfind, hsrc, Bool.not_true, Bool.false_eq_true, if_false, hv]
  simp only [isNvencDispatch, hbeq, Bool.and_false, buildFfmpegCmd, Bool.false_eq_true, if_false, heff]

/-- Witness for C5: the downgrade evaluated with profile nvenc_max and
GPU_MODE cpu on a concrete pending job. -/
theorem C5_gpu_downgrade_witness :
    ("hevc_nvenc" = "hevc_nvenc" ∨ "hevc_nvenc" = "h264_nvenc") ∧
    effectiveCodec "hevc_nvenc" c1Env.gpu_mode =
      (if "hevc_nvenc" = "hevc_nvenc" then "libx265" else "libx264") ∧
    (run_conversion c1Env "aaaabbbb-cccc" c5St).spawned = some
      ["ffmpeg", "-y", "-i", "/media/movie.mkv", "-c:v",
       (if "hevc_nvenc" = "hevc_nvenc" then "libx265" else "libx264"), "-preset", "p7", "-crf", "19",
       "-c:a", get_global_setting c5St.settings "audio_codec" "copy", "-c:s", "copy",
       "-progress", "pipe:1", "-nostats",
       conversionTmpPath c1Env.cacheDir "/media/movie.mkv" "aaaabbbb-cccc"] ∧
    (run_conversion c1Env "aaaabbbb-cccc" c5St).st.settings = c5St.settings :=
  C5_gpu_downgrade c1Env "aaaabbbb-cccc" c5St
    (mkQueueRow "aaaabbbb-cccc" (some "L") "/media/movie.mkv" 5000 "pending" 0)
    "hevc_nvenc" "p7" "19" (by decide) (by decide) (by decide) (by decide) (by decide)

/-- C6 amended: the values the progress loop commits agree with the claim
formulas once remaining_sec is read as a truncation toward zero: for every
frame with a nonnegative out_time_us, (progress, eta) equals
`specFrameAmended` (floor kept in the progress formula, Python int()
truncation in remaining_sec, zero-duration inputs give progress 0 and an
empty eta), and the committed fps is the parsed fps value. -/
theorem C6_progress_eta_amended (duration fps : ℚ) (t : Int) (ht : 0 ≤ t) :
    ((onFpsFrame duration t fps).1, (onFpsFrame duration t fps).2.2) = specFrameAmended duration t fps ∧
    (onFpsFrame duration t fps).2.1 = fps := by
  constructor
  · simp only [onFpsFrame, specFrameAmended]
    by_cases hd : duration > 0
    · have htc : (0:ℚ) ≤ (t : ℚ) := by exact_mod_cast ht
      have hx : (0:ℚ) ≤ (t : ℚ) / 1000000 / duration * 100 :=
        mul_nonneg (div_nonneg (div_nonneg htc (by norm_num)) hd.le) (by norm_num)
      have hpt : pyTrunc ((t : ℚ) / 1000000 / duration * 100) =
          ratFloor ((t : ℚ) / 1000000 / duration * 100) := by
        rw [pyTrunc_eq_floor_of_nonneg _ hx, ratFloor_eq_floor]
      simp only [hd, gt_iff_lt, if_pos, hpt]
      by_cases hf : 0 < fps <;> simp [hf]
    · simp [hd]
  · simp only [onFpsFrame]
    by_cases hd : duration > 0
    · by_cases hf : fps > 0 <;> simp [hd, hf]
    · simp [hd]

/-- Witness for C6: the amended frame formulas evaluated at duration 2 s,
out_time_us 1000000, fps 25. -/
theorem C6_progress_eta_witness :
    ((onFpsFrame 2 1000000 25).1, (onFpsFrame 2 1000000 25).2.2) = specFrameAmended 2 1000000 25 ∧
    (onFpsFrame 2 1000000 25).2.1 = 25 :=
  C6_progress_eta_amended 2 25 1000000 (by decide)

/-- C6 counterexample: on the progress frame with duration 1 s, out_time_us
1500000 (the transcoder slightly past the probed duration) and fps 25, the
code commits eta "0m0s" (Python int() truncates -0.5 to 0) while the claim
formula floors -0.5 to -1 and demands "-1m59s". -/
theorem C6_eta_floor_cex :
    (onFpsFrame 1 1500000 25).2.2 = "0m0s" ∧
    (specFrameClaim 1 1500000 25).2 = "-1m59s" ∧
    ((onFpsFrame 1 1500000 25).1, (onFpsFrame 1 1500000 25).2.2) ≠ specFrameClaim 1 1500000 25 := by
  have hpt : pyTrunc (-(1/2) : ℚ) = 0 := by
    rw [pyTrunc_eq_neg_floor_neg_of_nonpos _ (by norm_num)]
    norm_num
  have hrf : ratFloor (-(1/2) : ℚ) = -1 := by
    rw [ratFloor_eq_floor]
    norm_num
  have hA : (onFpsFrame 1 1500000 25).2.2 = "0m0s" := by
    simp only [onFpsFrame]
    norm_num
    rw [hpt]
    decide
  have hB : (specFrameClaim 1 1500000 25).2 = "-1m59s" := by
    simp only [specFrameClaim]
    norm_num
    rw [hrf]
    decide
  refine ⟨hA, hB, fun h => ?_⟩
  have h2 := congrArg Prod.snd h
  simp only at h2
  rw [hA, hB] at h2
  exact absurd h2 (by decide)

theorem queueExistingCheck_append_pending (queue : List QueueRow) (j : String)
    (lib : Option String) (p : String) (sz : Nat) (n : Nat) :
    queueExistingCheck (queue ++ [mkQueueRow j lib p sz "pending" n]) p = true := by
  simp [queueExistingCheck, mkQueueRow]

/-- C8: POST /api/queue/add returns 400 and inserts nothing whenever a
pending/processing row for the path exists (whatever the state), and
enqueueing the same on-disk path twice in succession has the first call
insert a pending row and return the new id while the second returns
400 "Al in wachtrij" and leaves the state unchanged. -/
theorem C8_duplicate_enqueue_400 (st : SysState) (p : String) (lib : Option String)
    (j1 j2 : String) (n1 n2 : Nat)
    (hne : p ≠ "") (hfs : fsExists st.fs p = true)
    (hnew : queueExistingCheck st.queue p = false) :
    (∀ st2 : SysState, ∀ j : String, ∀ n : Nat, queueExistingCheck st2.queue p = true →
       (∃ msg, (api_add_to_queue st2 p lib j n).1 = .httpError 400 msg) ∧
       (api_add_to_queue st2 p lib j n).2 = st2) ∧
    (api_add_to_queue st p lib j1 n1).1 = .ok j1 ∧
    (api_add_to_queue st p lib j1 n1).2.queue =
      st.queue ++ [mkQueueRow j1 lib p (fsGetsize st.fs p) "pending" n1] ∧
    (api_add_to_queue (api_add_to_queue st p lib j1 n1).2 p lib j2 n2).1 =
      .httpError 400 "Al in wachtrij" ∧
    (api_add_to_queue (api_add_to_queue st p lib j1 n1).2 p lib j2 n2).2 =
      (api_add_to_queue st p lib j1 n1).2 := by
  have hfirst : api_add_to_queue st p lib j1 n1 =
      (.ok j1, { st with queue := st.queue ++ [mkQueueRow j1 lib p (fsGetsize st.fs p) "pending" n1] }) := by
    simp [api_add_to_queue, hne, hfs, hnew]
  refine ⟨?_, ?_, ?_, ?_, ?_⟩
  · intro st2 j n hdup
    by_cases hc : (p = "" || !(fsExists st2.fs p)) = true
    · constructor
      · exact ⟨"Bestand niet gevonden", by simp [api_add_to_queue, hc]⟩
      · simp [api_add_to_queue, hc]
    · simp only [Bool.not_eq_true] at hc
      constructor
      · exact ⟨"Al in wachtrij", by simp [api_add_to_queue, hc, hdup]⟩
      · simp [api_add_to_queue, hc, hdup]
  · rw [hfirst]
  · rw [hfirst]
  · rw [hfirst]
    simp [api_add_to_queue, hne, hfs, queueExistingCheck_append_pending]
  · rw [hfirst]
    simp [api_add_to_queue, hne, hfs, queueExistingCheck_append_pending]

/-- Witness for C8: the double enqueue evaluated on a concrete state with the
file on disk and an empty queue. -/
theorem C8_duplicate_enqueue_witness :
    (api_add_to_queue c8St "/media/new.mkv" none "q1" 1).1 = .ok "q1" ∧
    (api_add_to_queue c8St "/media/new.mkv" none "q1" 1).2.queue =
      c8St.queue ++ [mkQueueRow "q1" none "/media/new.mkv"
        (fsGetsize c8St.fs "/media/new.mkv") "pending" 1] ∧
    (api_add_to_queue (api_add_to_queue c8St "/media/new.mkv" none "q1" 1).2
        "/media/new.mkv" none "q2" 2).1 = .httpError 400 "Al in wachtrij" ∧
    (api_add_to_queue (api_add_to_queue c8St "/media/new.mkv" none "q1" 1).2
        "/media/new.mkv" none "q2" 2).2 = (api_add_to_queue c8St "/media/new.mkv" none "q1" 1).2 :=
  have H := C8_duplicate_enqueue_400 c8St "/media/new.mkv" none "q1" "q2" 1 2
    (by decide) (by decide) (by decide)
  ⟨H.2.1, H.2.2.1, H.2.2.2.1, H.2.2.2.2⟩

/-- C9: the worker-pool size derived from the stored max_workers string is
max(1, min(3, v)) for every string that parses as an integer v, and the pool
started by `start_workers` has that many slots, always within 1..3. -/
theorem C9_max_workers_clamp (settings : List (String × String)) (v : String) (n : Int)
    (hv : get_global_setting settings "max_workers" "1" = v)
    (hn : pyParseInt v = some n) :
    get_max_workers settings = max 1 (min 3 n) ∧
    (start_workers settings).length = (max 1 (min 3 n)).toNat ∧
    1 ≤ (start_workers settings).length ∧ (start_workers settings).length ≤ 3 := by
  have h1 : get_max_workers settings = max 1 (min 3 n) := by
    simp [get_max_workers, hv, hn]
  have h2 : (start_workers settings).length = (max 1 (min 3 n)).toNat := by
    simp [start_workers, h1]
  refine ⟨h1, h2, ?_, ?_⟩ <;> rw [h2] <;> omega

/-- Witness for C9: stored values 0, 1, 3, 5 clamp to 1, 1, 3, 3 workers. -/
theorem C9_max_workers_witness :
    get_max_workers [("max_workers", "0")] = 1 ∧
    get_max_workers [("max_workers", "1")] = 1 ∧
    get_max_workers [("max_workers", "3")] = 3 ∧
    get_max_workers [("max_workers", "5")] = 3 ∧
    (start_workers [("max_workers", "5")]).length = 3 :=
  have h0 := C9_max_workers_clamp [("max_workers", "0")] "0" 0 rfl (by decide)
  have h1 := C9_max_workers_clamp [("max_workers", "1")] "1" 1 rfl (by decide)
  have h3 := C9_max_workers_clamp [("max_workers", "3")] "3" 3 rfl (by decide)
  have h5 := C9_max_workers_clamp [("max_workers", "5")] "5" 5 rfl (by decide)
  ⟨h0.1.trans (by decide), h1.1.trans (by decide), h3.1.trans (by decide),
   h5.1.trans (by decide), h5.2.1.trans (by decide)⟩

/-- C10: the duplicate checks of the scanner, the watcher's deferred enqueue
and POST /api/queue/add consider only pending/processing rows: on any state
whose every queue row for a path has status error, the shared check is false
and each of the three sites still inserts a fresh pending row for that path
(given its remaining gates: file on disk for the endpoint; no success history,
library found and probe demanding conversion for the watcher; eligibility
filters, no success history and probe demanding conversion for the scanner). -/
theorem C10_error_row_never_blocks (st : SysState) (p : String)
    (herr : ∀ r ∈ st.queue, r.file_path = p → r.status = "error") :
    queueExistingCheck st.queue p = false ∧
    (∀ lib : Option String, ∀ j : String, ∀ n : Nat, p ≠ "" → fsExists st.fs p = true →
      (api_add_to_queue st p lib j n).1 = .ok j ∧
      (api_add_to_queue st p lib j n).2.queue =
        st.queue ++ [mkQueueRow j lib p (fsGetsize st.fs p) "pending" n]) ∧
    (∀ lid : String, ∀ streams : Option (List FFStream), ∀ jid : String, ∀ fsize now : Nat,
      historySuccessCheck st.history p = false →
      (st.libraries.find? (fun l => l.id == lid)).isSome = true →
      needs_conversion streams
        (profile_to_ffmpeg (get_global_setting st.settings "conversion_profile" "nvenc_max")).1 = true →
      watcher_delayed_queue st lid true true streams p jid fsize now =
        { st with queue := st.queue ++ [mkQueueRow jid (some lid) p fsize "pending" now] }) ∧
    (∀ cacheDir : String, ∀ ids : Nat → String, ∀ lid : String, ∀ f : FileEntry,
      ∀ sc ad sk ac ni : Nat,
      entryPath f = p →
      VIDEO_EXTENSIONS.contains (strLower (pySuffix f.fname)) = true →
      strIn "_shrync_" f.fname = false →
      (cacheDir != "" && strIn cacheDir (entryPath f)) = false →
      historySuccessCheck st.history p = false →
      needs_conversion f.streams
        (profile_to_ffmpeg (get_global_setting st.settings "conversion_profile" "nvenc_max")).1 = true →
      (scanStep cacheDir ids lid ⟨st, sc, ad, sk, ac, ni⟩ f).st.queue =
        st.queue ++ [mkQueueRow (ids ni) (some lid) p f.size "pending" ni] ∧
      (scanStep cacheDir ids lid ⟨st, sc, ad, sk, ac, ni⟩ f).added = ad + 1) := by
  have hq : queueExistingCheck st.queue p = false := by
    rw [queueExistingCheck, List.any_eq_false]
    intro r hr
    by_cases hfp : r.file_path = p
    · have hst := herr r hr hfp
      simp [hfp, hst]
    · simp [hfp]
  refine ⟨hq, ?_, ?_, ?_⟩
  · intro lib j n hne hfs
    constructor <;> simp [api_add_to_queue, hne, hfs, hq]
  · intro lid streams jid fsize now hh hlib hneeds
    simp only [Option.isSome_iff_exists] at hlib
    rcases hlib with ⟨l, hl⟩
    simp [watcher_delayed_queue, hq, hh, hl, hneeds]
  · intro cacheDir ids lid f sc ad sk ac ni hpath hext hmark hcache hh hneeds
    subst hpath
    have hext2 : strLower (pySuffix f.fname) ∈ VIDEO_EXTENSIONS := by simpa using hext
    have hcache2 : ¬(¬cacheDir = "" ∧ strIn cacheDir (entryPath f) = true) := by
      intro hc
      rcases hc with ⟨hc1, hc2⟩
      simp [hc2] at hcache
      exact hc1 hcache
    constructor <;> simp [scanStep, hext2, hmark, hcache2, hq, hh, hneeds]

/-- Witness for C10: a path held only by an error-status queue row is
re-enqueued by the endpoint, the watcher and the scanner on a concrete state. -/
theorem C10_error_row_witness :
    queueExistingCheck c10St.queue "/media/err.mkv" = false ∧
    (api_add_to_queue c10St "/media/err.mkv" (some "L1") "n1" 5).1 = .ok "n1" ∧
    (api_add_to_queue c10St "/media/err.mkv" (some "L1") "n1" 5).2.queue =
      c10St.queue ++ [mkQueueRow "n1" (some "L1") "/media/err.mkv"
        (fsGetsize c10St.fs "/media/err.mkv") "pending" 5] ∧
    watcher_delayed_queue c10St "L1" true true none "/media/err.mkv" "n2" 700 6 =
      { c10St with queue := c10St.queue ++ [mkQueueRow "n2" (some "L1") "/media/err.mkv" 700 "pending" 6] } ∧
    (scanStep "" ids10 "L1" ⟨c10St, 0, 0, 0, 0, 0⟩ c10File).st.queue =
      c10St.queue ++ [mkQueueRow (ids10 0) (some "L1") "/media/err.mkv" c10File.size "pending" 0] ∧
    (scanStep "" ids10 "L1" ⟨c10St, 0, 0, 0, 0, 0⟩ c10File).added = 0 + 1 :=
  have H := C10_error_row_never_blocks c10St "/media/err.mkv" (by decide)
  have Hscan := H.2.2.2 "" ids10 "L1" c10File 0 0 0 0 0 (by decide) (by decide)
    (by decide) (by decide) (by decide) (by decide)
  ⟨H.1,
   (H.2.1 (some "L1") "n1" 5 (by decide) (by decide)).1,
   (H.2.1 (some "L1") "n1" 5 (by decide) (by decide)).2,
   H.2.2.1 "L1" none "n2" 700 6 (by decide) (by decide) (by decide),
   Hscan.1, Hscan.2⟩

theorem scanStep_history (c : String) (i : Nat → String) (l : String) (acc : ScanAcc) (f : FileEntry) :
    (scanStep c i l acc f).st.history = acc.st.history := by
  unfold scanStep
  dsimp only
  repeat' split
  all_goals rfl

theorem scanStep_settings (c : String) (i : Nat → String) (l : String) (acc : ScanAcc) (f : FileEntry) :
    (scanStep c i l acc f).st.settings = acc.st.settings := by
  unfold scanStep
  dsimp only
  repeat' split
  all_goals rfl

theorem scanStep_queue_ext (c : String) (i : Nat → String) (l : String) (acc : ScanAcc) (f : FileEntry) :
    ∃ t, (scanStep c i l acc f).st.queue = acc.st.queue ++ t := by
  unfold scanStep
  dsimp only
  repeat' split
  all_goals first
    | exact ⟨_, rfl⟩
    | exact ⟨[], by simp⟩

theorem scanFiles_cons (c : String) (i : Nat → String) (l : String) (g : FileEntry)
    (gs : List FileEntry) (acc : ScanAcc) :
    scanFiles c i l (g :: gs) acc = scanFiles c i l gs (scanStep c i l acc g) := rfl

theorem scanFiles_history (c : String) (i : Nat → String) (l : String) (files : List FileEntry) :
    ∀ acc : ScanAcc, (scanFiles c i l files acc).st.history = acc.st.history := by
  induction files with
  | nil => intro acc; rfl
  | cons g gs ih =>
    intro acc
    rw [scanFiles_cons, ih, scanStep_history]

theorem scanFiles_settings (c : String) (i : Nat → String) (l : String) (files : List FileEntry) :
    ∀ acc : ScanAcc, (scanFiles c i l files acc).st.settings = acc.st.settings := by
  induction files with
  | nil => intro acc; rfl
  | cons g gs ih =>
    intro acc
    rw [scanFiles_cons, ih, scanStep_settings]

theorem scanFiles_queue_ext (c : String) (i : Nat → String) (l : String) (files : List FileEntry) :
    ∀ acc : ScanAcc, ∃ t, (scanFiles c i l files acc).st.queue = acc.st.queue ++ t := by
  induction files with
  | nil => intro acc; exact ⟨[], by simp [scanFiles]⟩
  | cons g gs ih =>
    intro acc
    rcases ih (scanStep c i l acc g) with ⟨t2, ht2⟩
    rcases scanStep_queue_ext c i l acc g with ⟨t1, ht1⟩
    refine ⟨t1 ++ t2, ?_⟩
    rw [scanFiles_cons, ht2, ht1, List.append_assoc]

theorem queueExistingCheck_mono (queue t : List QueueRow) (p : String)
    (h : queueExistingCheck queue p = true) : queueExistingCheck (queue ++ t) p = true := by
  simp only [queueExistingCheck] at h ⊢
  rw [List.any_append, h, Bool.true_or]

theorem settledB_mono (c : String) (st st2 : SysState) (f : FileEntry)
    (hq : ∃ t, st2.queue = st.queue ++ t) (hh : st2.history = st.history)
    (hs : st2.settings = st.settings)
    (h : settledB c st f = true) : settledB c st2 f = true := by
  rcases hq with ⟨t, ht⟩
  rw [settledB] at h ⊢
  rw [ht, hh, hs]
  by_cases hQ : queueExistingCheck st.queue (entryPath f) = true
  · rw [queueExistingCheck_mono st.queue t (entryPath f) hQ]
    simp
  · have hQf : queueExistingCheck st.queue (entryPath f) = false := by
      simp only [Bool.not_eq_true] at hQ
      exact hQ
    rw [hQf, Bool.or_false] at h
    rcases Bool.or_eq_true_iff.mp h with h12 | h3
    · rcases Bool.or_eq_true_iff.mp h12 with h1 | h2
      · rw [h1]
        simp
      · rw [h2]
        simp
    · rw [h3]
      simp

theorem scanStep_ignored (c : String) (i : Nat → String) (l : String) (acc : ScanAcc)
    (f : FileEntry) (h : scanIgnores c f = true) : scanStep c i l acc f = acc := by
  rw [scanIgnores] at h
  unfold scanStep
  dsimp only
  rcases Bool.or_eq_true_iff.mp h with h12 | h3
  · rcases Bool.or_eq_true_iff.mp h12 with h1 | h2
    · have hm : ¬ (strLower (pySuffix f.fname) ∈ VIDEO_EXTENSIONS) := by simpa using h1
      simp [hm]
    · by_cases hm : strLower (pySuffix f.fname) ∈ VIDEO_EXTENSIONS
      · simp [hm, h2]
      · simp [hm]
  · have hcc : ¬ c = "" ∧ strIn c (entryPath f) = true := by simpa using h3
    by_cases hm : strLower (pySuffix f.fname) ∈ VIDEO_EXTENSIONS
    · by_cases hmk : strIn "_shrync_" f.fname = true
      · simp [hm, hmk]
      · simp [hm, hmk, hcc]
    · simp [hm]

theorem scanStep_settles (c : String) (i : Nat → String) (l : String) (acc : ScanAcc) (f : FileEntry) :
    settledB c (scanStep c i l acc f).st f = true := by
  by_cases hig : scanIgnores c f = true
  · simp [settledB, hig]
  · have hig2 : scanIgnores c f = false := by
      simp only [Bool.not_eq_true] at hig
      exact hig
    have hig3 := hig2
    rw [scanIgnores] at hig3
    simp only [Bool.or_eq_false_iff] at hig3
    obtain ⟨⟨ha, hb⟩, hd⟩ := hig3
    unfold scanStep
    dsimp only
    simp only [ha, hb, hd, Bool.false_eq_true, if_false]
    by_cases hqc : queueExistingCheck acc.st.queue (entryPath f) = true
    · simp only [hqc, if_true]
      simp [settledB, hqc]
    · have hqc2 : queueExistingCheck acc.st.queue (entryPath f) = false := by
        simp only [Bool.not_eq_true] at hqc
        exact hqc
      simp only [hqc2, Bool.false_eq_true, if_false]
      by_cases hhc : historySuccessCheck acc.st.history (entryPath f) = true
      · simp only [hhc, if_true]
        simp [settledB, hhc]
      · have hhc2 : historySuccessCheck acc.st.history (entryPath f) = false := by
          simp only [Bool.not_eq_true] at hhc
          exact hhc
        simp only [hhc2, Bool.false_eq_true, if_false]
        by_cases hnc : needs_conversion f.streams
            (profile_to_ffmpeg (get_global_setting acc.st.settings "conversion_profile" "nvenc_max")).1 = true
        · simp only [hnc, Bool.not_true, Bool.false_eq_true, if_false]
          simp [settledB, queueExistingCheck_append_pending]
        · have hnc2 : needs_conversion f.streams
              (profile_to_ffmpeg (get_global_setting acc.st.settings "conversion_profile" "nvenc_max")).1 = false := by
            simp only [Bool.not_eq_true] at hnc
            exact hnc
          simp only [hnc2, Bool.not_false, if_true]
          simp [settledB, hnc2]

theorem scanStep_settled_noop (c : String) (i : Nat → String) (l : String) (acc : ScanAcc)
    (f : FileEntry) (h : settledB c acc.st f = true) :
    (scanStep c i l acc f).st = acc.st ∧
    (scanStep c i l acc f).added = acc.added ∧
    (scanStep c i l acc f).skipped = acc.skipped + (if skipClass c acc.st f then 1 else 0) := by
  by_cases hig : scanIgnores c f = true
  · have hsk : skipClass c acc.st f = false := by simp [skipClass, hig]
    rw [scanStep_ignored c i l acc f hig, hsk]
    simp
  · have hig2 : scanIgnores c f = false := by
      simp only [Bool.not_eq_true] at hig
      exact hig
    have hig3 := hig2
    rw [scanIgnores] at hig3
    simp only [Bool.or_eq_false_iff] at hig3
    obtain ⟨⟨ha, hb⟩, hd⟩ := hig3
    unfold scanStep
    dsimp only
    simp only [ha, hb, hd, Bool.false_eq_true, if_false]
    by_cases hqc : queueExistingCheck acc.st.queue (entryPath f) = true
    · have hsk : skipClass c acc.st f = true := by simp [skipClass, hig2, hqc]
      simp [hqc, hsk]
    · have hqc2 : queueExistingCheck acc.st.queue (entryPath f) = false := by
        simp only [Bool.not_eq_true] at hqc
        exact hqc
      simp only [hqc2, Bool.false_eq_true, if_false]
      by_cases hhc : historySuccessCheck acc.st.history (entryPath f) = true
      · have hsk : skipClass c acc.st f = true := by simp [skipClass, hig2, hhc]
        simp [hhc, hsk]
      · have hhc2 : historySuccessCheck acc.st.history (entryPath f) = false := by
          simp only [Bool.not_eq_true] at hhc
          exact hhc
        have hsk : skipClass c acc.st f = false := by simp [skipClass, hqc2, hhc2]
        have hnc2 : needs_conversion f.streams
            (profile_to_ffmpeg (get_global_setting acc.st.settings "conversion_profile" "nvenc_max")).1 = false := by
          rw [settledB, hig2, hqc2, hhc2] at h
          simp only [Bool.false_or, Bool.or_false] at h
          simp only [Bool.not_eq_true'] at h
          exact h
        simp [hhc2, hnc2, hsk]

theorem scanFiles_settled_noop (c : String) (i : Nat → String) (l : String) (files : List FileEntry) :
    ∀ acc : ScanAcc, (∀ f ∈ files, settledB c acc.st f = true) →
      (scanFiles c i l files acc).st = acc.st ∧
      (scanFiles c i l files acc).added = acc.added ∧
      (scanFiles c i l files acc).skipped = acc.skipped + files.countP (skipClass c acc.st) := by
  induction files with
  | nil => intro acc _; exact ⟨rfl, rfl, by simp [scanFiles]⟩
  | cons g gs ih =>
    intro acc hset
    have hg := hset g (List.mem_cons_self g gs)
    obtain ⟨h1, h2, h3⟩ := scanStep_settled_noop c i l acc g hg
    have hset2 : ∀ f ∈ gs, settledB c (scanStep c i l acc g).st f = true := by
      intro f hf
      rw [h1]
      exact hset f (List.mem_cons_of_mem _ hf)
    obtain ⟨H1, H2, H3⟩ := ih (scanStep c i l acc g) hset2
    refine ⟨?_, ?_, ?_⟩
    · rw [scanFiles_cons, H1, h1]
    · rw [scanFiles_cons, H2, h2]
    · rw [scanFiles_cons, H3, h3, h1, List.countP_cons]
      by_cases hsc : skipClass c acc.st g = true
      · simp [hsc]
        omega
      · have hsc2 : skipClass c acc.st g = false := by
          simp only [Bool.not_eq_true] at hsc
          exact hsc
        simp [hsc2]

theorem scanFiles_settles (c : String) (i : Nat → String) (l : String) (files : List FileEntry) :
    ∀ acc : ScanAcc, ∀ f ∈ files, settledB c (scanFiles c i l files acc).st f = true := by
  induction files with
  | nil => intro acc f hf; cases hf
  | cons g gs ih =>
    intro acc f hf
    rw [scanFiles_cons]
    rcases List.mem_cons.mp hf with rfl | hf2
    · exact settledB_mono c (scanStep c i l acc f).st _ f
        (scanFiles_queue_ext c i l gs _) (scanFiles_history c i l gs _)
        (scanFiles_settings c i l gs _) (scanStep_settles c i l acc f)
    · exact ih (scanStep c i l acc g) f hf2

theorem scanStep_added_cases (c : String) (i : Nat → String) (l : String) (acc : ScanAcc)
    (f : FileEntry) :
    (scanStep c i l acc f).added = acc.added ∨
    ((scanStep c i l acc f).added = acc.added + 1 ∧ scanIgnores c f = false ∧
     queueExistingCheck (scanStep c i l acc f).st.queue (entryPath f) = true) := by
  by_cases hig : scanIgnores c f = true
  · left
    rw [scanStep_ignored c i l acc f hig]
  · have hig2 : scanIgnores c f = false := by
      simp only [Bool.not_eq_true] at hig
      exact hig
    have hig3 := hig2
    rw [scanIgnores] at hig3
    simp only [Bool.or_eq_false_iff] at hig3
    obtain ⟨⟨ha, hb⟩, hd⟩ := hig3
    unfold scanStep
    dsimp only
    simp only [ha, hb, hd, Bool.false_eq_true, if_false]
    by_cases hqc : queueExistingCheck acc.st.queue (entryPath f) = true
    · left
      simp [hqc]
    · have hqc2 : queueExistingCheck acc.st.queue (entryPath f) = false := by
        simp only [Bool.not_eq_true] at hqc
        exact hqc
      simp only [hqc2, Bool.false_eq_true, if_false]
      by_cases hhc : historySuccessCheck acc.st.history (entryPath f) = true
      · left
        simp [hhc]
      · have hhc2 : historySuccessCheck acc.st.history (entryPath f) = false := by
          simp only [Bool.not_eq_true] at hhc
          exact hhc
        simp only [hhc2, Bool.false_eq_true, if_false]
        by_cases hnc : needs_conversion f.streams
            (profile_to_ffmpeg (get_global_setting acc.st.settings "conversion_profile" "nvenc_max")).1 = true
        · right
          simp only [hnc, Bool.not_true, Bool.false_eq_true, if_false]
          exact ⟨trivial, hig2, queueExistingCheck_append_pending ..⟩
        · left
          have hnc2 : needs_conversion f.streams
              (profile_to_ffmpeg (get_global_setting acc.st.settings "conversion_profile" "nvenc_max")).1 = false := by
            simp only [Bool.not_eq_true] at hnc
            exact hnc
          simp [hnc2]

theorem scanFiles_added_le (c : String) (i : Nat → String) (l : String) (files : List FileEntry) :
    ∀ acc : ScanAcc, (scanFiles c i l files acc).added ≤
      acc.added + files.countP (skipClass c (scanFiles c i l files acc).st) := by
  induction files with
  | nil => intro acc; simp [scanFiles]
  | cons g gs ih =>
    intro acc
    rw [scanFiles_cons, List.countP_cons]
    have IH := ih (scanStep c i l acc g)
    rcases scanStep_added_cases c i l acc g with h | ⟨h1, hig, hqc⟩
    · have hb : (0:Nat) ≤ if skipClass c (scanFiles c i l gs (scanStep c i l acc g)).st g = true then 1 else 0 :=
        Nat.zero_le _
      omega
    · rcases scanFiles_queue_ext c i l gs (scanStep c i l acc g) with ⟨t, ht⟩
      have hq2 : queueExistingCheck (scanFiles c i l gs (scanStep c i l acc g)).st.queue (entryPath g) = true := by
        rw [ht]
        exact queueExistingCheck_mono _ _ _ hqc
      have hP : skipClass c (scanFiles c i l gs (scanStep c i l acc g)).st g = true := by
        simp [skipClass, hig, hq2]
      rw [hP]
      simp only [if_true]
      omega

theorem scanStep_libraries (c : String) (i : Nat → String) (l : String) (acc : ScanAcc) (f : FileEntry) :
    (scanStep c i l acc f).st.libraries = acc.st.libraries := by
  unfold scanStep
  dsimp only
  repeat' split
  all_goals rfl

theorem scanFiles_libraries (c : String) (i : Nat → String) (l : String) (files : List FileEntry) :
    ∀ acc : ScanAcc, (scanFiles c i l files acc).st.libraries = acc.st.libraries := by
  induction files with
  | nil => intro acc; rfl
  | cons g gs ih =>
    intro acc
    rw [scanFiles_cons, ih, scanStep_libraries]

theorem scan_library_unfold (cacheDir : String) (ids : Nat → String) (lid : String)
    (files : List FileEntry) (now : String) (st : SysState) (lib : LibraryRow)
    (hlib : st.libraries.find? (fun l => l.id == lid) = some lib) :
    scan_library cacheDir ids lid files true now st =
      { scanFiles cacheDir ids lid files ⟨st, 0, 0, 0, 0, 0⟩ with
        st := { (scanFiles cacheDir ids lid files ⟨st, 0, 0, 0, 0, 0⟩).st with
          libraries := (scanFiles cacheDir ids lid files ⟨st, 0, 0, 0, 0, 0⟩).st.libraries.map
            (fun l => if l.id == lid then { l with last_scan := some now } else l) } } := by
  simp only [scan_library, hlib]
  rfl

theorem updated_libraries_find (libs : List LibraryRow) (lid : String) (now : String)
    (lib : LibraryRow) (h : libs.find? (fun l => l.id == lid) = some lib) :
    (libs.map (fun l => if l.id == lid then { l with last_scan := some now } else l)).find?
        (fun l => l.id == lid) =
      some (if lib.id == lid then { lib with last_scan := some now } else lib) := by
  rw [List.find?_map]
  have hpg : ((fun l : LibraryRow => l.id == lid) ∘
      (fun l => if l.id == lid then { l with last_scan := some now } else l)) =
      (fun l : LibraryRow => l.id == lid) := by
    funext l0
    by_cases hc : l0.id = lid <;> simp [hc]
  rw [hpg, h]
  rfl

/-- C7: running scan_library twice with the same directory walk and no
filesystem change in between adds zero queue rows on the second run — the
queue is unchanged, the second added counter is 0, and every file the first
run added is caught by the pending/processing queue check, so the second run
counts at least first-run-added files as skipped. -/
theorem C7_scan_idempotent (cacheDir : String) (ids1 ids2 : Nat → String) (lid : String)
    (files : List FileEntry) (now1 now2 : String) (st : SysState) (lib : LibraryRow)
    (hlib : st.libraries.find? (fun l => l.id == lid) = some lib) :
    (scan_library cacheDir ids2 lid files true now2
        (scan_library cacheDir ids1 lid files true now1 st).st).st.queue =
      (scan_library cacheDir ids1 lid files true now1 st).st.queue ∧
    (scan_library cacheDir ids2 lid files true now2
        (scan_library cacheDir ids1 lid files true now1 st).st).added = 0 ∧
    (scan_library cacheDir ids1 lid files true now1 st).added ≤
      (scan_library cacheDir ids2 lid files true now2
        (scan_library cacheDir ids1 lid files true now1 st).st).skipped := by
  have e1 := scan_library_unfold cacheDir ids1 lid files now1 st lib hlib
  have hl1 : (scanFiles cacheDir ids1 lid files ⟨st, 0, 0, 0, 0, 0⟩).st.libraries = st.libraries :=
    scanFiles_libraries cacheDir ids1 lid files ⟨st, 0, 0, 0, 0, 0⟩
  have hlib1 : (scan_library cacheDir ids1 lid files true now1 st).st.libraries.find?
      (fun l => l.id == lid) =
      some (if lib.id == lid then { lib with last_scan := some now1 } else lib) := by
    rw [e1]
    dsimp only
    rw [hl1]
    exact updated_libraries_find st.libraries lid now1 lib hlib
  have e2 := scan_library_unfold cacheDir ids2 lid files now2
    (scan_library cacheDir ids1 lid files true now1 st).st
    (if lib.id == lid then { lib with last_scan := some now1 } else lib) hlib1
  have hset1 : ∀ f ∈ files,
      settledB cacheDir (scan_library cacheDir ids1 lid files true now1 st).st f = true := by
    intro f hf
    have h0 := scanFiles_settles cacheDir ids1 lid files ⟨st, 0, 0, 0, 0, 0⟩ f hf
    refine settledB_mono cacheDir _ _ f ⟨[], ?_⟩ ?_ ?_ h0
    · rw [e1]
      simp
    · rw [e1]
    · rw [e1]
  obtain ⟨HB1, HB2, HB3⟩ := scanFiles_settled_noop cacheDir ids2 lid files
    ⟨(scan_library cacheDir ids1 lid files true now1 st).st, 0, 0, 0, 0, 0⟩
    (fun f hf => hset1 f hf)
  have hadd := scanFiles_added_le cacheDir ids1 lid files ⟨st, 0, 0, 0, 0, 0⟩
  have hskeq : skipClass cacheDir (scan_library cacheDir ids1 lid files true now1 st).st =
      skipClass cacheDir (scanFiles cacheDir ids1 lid files ⟨st, 0, 0, 0, 0, 0⟩).st := by
    funext f
    rw [skipClass, skipClass, e1]
  refine ⟨?_, ?_, ?_⟩
  · rw [e2]
    dsimp only
    rw [HB1]
  · rw [e2]
    dsimp only
    rw [HB2]
  · rw [e2]
    dsimp only
    rw [HB3, hskeq, e1]
    dsimp only
    simpa using hadd

/-- Witness for C7: the double scan evaluated on one library with one
eligible file. -/
theorem C7_scan_idempotent_witness :
    (scan_library "" ids10 "L1" [c7File] true "t2"
        (scan_library "" ids10 "L1" [c7File] true "t1" c7St).st).st.queue =
      (scan_library "" ids10 "L1" [c7File] true "t1" c7St).st.queue ∧
    (scan_library "" ids10 "L1" [c7File] true "t2"
        (scan_library "" ids10 "L1" [c7File] true "t1" c7St).st).added = 0 ∧
    (scan_library "" ids10 "L1" [c7File] true "t1" c7St).added ≤
      (scan_library "" ids10 "L1" [c7File] true "t2"
        (scan_library "" ids10 "L1" [c7File] true "t1" c7St).st).skipped :=
  C7_scan_idempotent "" ids10 ids10 "L1" [c7File] "t1" "t2" c7St c7Lib (by decide)

end Shrync
